import Mathlib

/-!
Verification of the Chain Identity & Upgrade Resolution Engine of
cosmos-watcher (internal/chain/registry.go, pkg/types/chain.go, and the
chain-loading job in internal/cron).

The Go code is shallowly embedded: the network is an explicit oracle
(every HTTP probe or fetch is a field of `Oracle`), the registry's
mutable state (`go-cache` instance, `chains` map, `monitoredChains`
slice) is threaded explicitly as a `RegistryState`, time is a `Nat`
(seconds; the 5-minute TTL is 300), and every embedded operation
additionally returns the number of network requests it performed so
that "makes zero network calls" claims are provable.  Strings are
modelled at the character level; the repository only manipulates ASCII
chain names, so Go byte indices coincide with character indices.
-/

namespace CosmosWatcher

/-! ## Go string helpers

Faithful character-level models of the `strings` package functions the
registry uses.  Go operates on bytes; for the ASCII names this code
handles, bytes and characters coincide. -/

/-- Whether `pat` occurs at the start of `cs`. -/
def startsWithChars : List Char → List Char → Bool
  | [], _ => true
  | _ :: _, [] => false
  | p :: ps, c :: cs => p = c && startsWithChars ps cs

/-- Whether `pat` occurs contiguously anywhere in `cs`. -/
def hasInfixChars (pat : List Char) : List Char → Bool
  | [] => startsWithChars pat []
  | c :: cs => startsWithChars pat (c :: cs) || hasInfixChars pat cs

/-- Model of Go `strings.Contains s sub`. -/
def goContains (s sub : String) : Bool :=
  hasInfixChars sub.toList s.toList

/-- Model of Go `strings.HasSuffix`. -/
def goHasSuffix (s suf : String) : Bool :=
  startsWithChars suf.toList.reverse s.toList.reverse

/-- Split on a one-character separator, keeping empty fields (model of
Go `strings.Split s "/"`). -/
def splitCharAux (sep : Char) : List Char → List Char → List String
  | [], acc => [String.mk acc.reverse]
  | x :: xs, acc =>
    if x = sep then String.mk acc.reverse :: splitCharAux sep xs []
    else splitCharAux sep xs (x :: acc)

/-- Model of Go `strings.Split` with a one-character separator. -/
def goSplitChar (s : String) (sep : Char) : List String :=
  splitCharAux sep s.toList []

/-- Model of Go `unicode.IsSpace` restricted to the ASCII whitespace
characters relevant here (space, tab, newline, vertical tab, form
feed, carriage return). -/
def goIsSpace (c : Char) : Bool :=
  c = ' ' || c = '\t' || c = '\n' || c = Char.ofNat 11 || c = Char.ofNat 12 || c = '\r'

/-- Trim characters satisfying `p` from both ends of a character list. -/
def trimBy (p : Char → Bool) (cs : List Char) : List Char :=
  ((cs.dropWhile p).reverse.dropWhile p).reverse

/-- Model of Go `strings.TrimSpace`. -/
def goTrimSpace (s : String) : String :=
  String.mk (trimBy goIsSpace s.toList)

/-- Model of Go `strings.Trim s "/"` (single-character cutset). -/
def goTrimChar (s : String) (c : Char) : String :=
  String.mk (trimBy (fun x => x = c) s.toList)

/-- Index of the last occurrence in `cs` of any character in `targets`
(model of Go `strings.LastIndexAny`). -/
def lastIndexAnyChar : List Char → List Char → Option Nat
  | [], _ => none
  | c :: rest, ts =>
    match lastIndexAnyChar rest ts with
    | some i => some (i + 1)
    | none => if ts.contains c then some 0 else none

/-- Model of a successful Go `strconv.Atoi`: an optional sign followed
by at least one ASCII digit, with the value in the 64-bit int range. -/
def goAtoiOk (s : String) : Bool :=
  match s.toList with
  | [] => false
  | c :: rest =>
    let (neg, ds) :=
      if c = '-' then (true, rest)
      else if c = '+' then (false, rest)
      else (false, c :: rest)
    !ds.isEmpty && ds.all Char.isDigit &&
      (let v : Nat := ds.foldl (fun a d => a * 10 + (d.toNat - 48)) 0
       if neg then v ≤ 2 ^ 63 else v ≤ 2 ^ 63 - 1)

/-! ## Data model

Shapes decoded from upstream JSON (registry.go and pkg/types/chain.go).
`time.Time` values are modelled as `Int` (Unix seconds); JSON decoding
itself is external, so documents arrive already shaped. -/

/-- registry.go `Endpoint`. -/
structure Endpoint where
  address : String
  deriving DecidableEq, Repr

/-- registry.go `APIs`. -/
structure APIs where
  rpc : List Endpoint
  rest : List Endpoint
  deriving DecidableEq, Repr

/-- registry.go `Explorer`. -/
structure Explorer where
  name : String
  url : String
  txPage : String
  kind : String
  deriving DecidableEq, Repr

/-- registry.go `ChainInfo`: the resolved chain descriptor. -/
structure ChainInfo where
  name : String := ""
  chainID : String := ""
  network : String := ""
  version : String := ""
  height : Int := 0
  apis : APIs := ⟨[], []⟩
  explorers : List Explorer := []
  lastUpdated : Int := 0
  deriving DecidableEq, Repr

/-- pkg/types/chain.go `UpgradeInfo`: the canonical upgrade record
returned by `GetUpgradeInfo` and decoded from the Source-A
`upgrades.json` document. -/
structure TypesUpgradeInfo where
  name : String := ""
  chainName : String := ""
  height : Int := 0
  info : String := ""
  time : Int := 0
  version : String := ""
  estimated : Bool := false
  network : String := ""
  proposal : String := ""
  proposalLink : String := ""
  guide : String := ""
  blockLink : String := ""
  cosmovisorFolder : String := ""
  gitHash : String := ""
  repo : String := ""
  rpc : String := ""
  api : String := ""
  deriving DecidableEq, Repr

/-- registry.go `PolkachuUpgrade`: one entry of the Source-B feed. -/
structure PolkachuUpgrade where
  network : String := ""
  chainName : String := ""
  repo : String := ""
  nodeVersion : String := ""
  cosmovisorFolder : String := ""
  gitHash : String := ""
  proposal : String := ""
  block : Int := 0
  blockLink : String := ""
  estimatedUpgradeTime : String := ""
  guide : String := ""
  rpc : String := ""
  api : String := ""
  deriving DecidableEq, Repr

/-- Error of one HTTP fetch (transport failure, non-2xx status, or a
body-decoding failure); `other` covers `fmt.Errorf` messages such as
the Polkachu "no upgrade found" error.  `msg` is the Go `err.Error()`
string, on which `GetChainInfo` performs substring classification. -/
inductive HttpErr where
  | transport (msg : String)
  | status (code : Nat)
  | decode (msg : String)
  | other (msg : String)
  deriving DecidableEq, Repr

/-- The Go `err.Error()` string of an `HttpErr`; status errors render
exactly as `fetchChainInfoFromURL` formats them. -/
def HttpErr.msg : HttpErr → String
  | .transport m => m
  | .status c => "HTTP request failed with status code: " ++ toString c
  | .decode m => m
  | .other m => m

/-! ## Cache model

`go-cache` with string keys.  A stored entry holds either a value or
the explicit nil marker (negative caching), plus its absolute
expiration instant.  `Get` reports a hit exactly when the entry exists
and the current time has not passed the expiration. -/

/-- A value stored in the shared cache: either a chain descriptor
(`chain_info:` keys) or an upgrade record (`upgrade_info:` keys). -/
inductive CacheVal where
  | chain (c : ChainInfo)
  | upgrade (u : TypesUpgradeInfo)
  deriving DecidableEq, Repr

/-- One `go-cache` item: the stored object (`none` is the cached nil
marker) and its expiration time. -/
structure CacheEntry where
  val : Option CacheVal
  exp : Nat
  deriving DecidableEq, Repr

/-- The 5-minute default TTL (seconds), `5*time.Minute` in the source. -/
def ttlDefault : Nat := 300

/-- `cache.Set key v d` at time `t`: the new item shadows any older
one with the same key. -/
def cacheSet (c : List (String × CacheEntry)) (k : String) (v : Option CacheVal)
    (t ttl : Nat) : List (String × CacheEntry) :=
  (k, ⟨v, t + ttl⟩) :: c

/-- `cache.Get key` at time `t`: `none` means not found (absent or
expired); `some v` returns the stored object, which is itself an
`Option` because a cached nil marker is a hit with a nil value. -/
def cacheGet (c : List (String × CacheEntry)) (k : String) (t : Nat) :
    Option (Option CacheVal) :=
  match c.lookup k with
  | some e => if t ≤ e.exp then some e.val else none
  | none => none

/-- registry.go `chainInfoCacheKey` applied to a name. -/
def chainInfoKey (name : String) : String := "chain_info:" ++ name

/-- registry.go `upgradeInfoCacheKey` applied to a name. -/
def upgradeInfoKey (name : String) : String := "upgrade_info:" ++ name

/-- The registry's mutable state: the shared `go-cache` instance, the
`chains` map, and the `monitoredChains` slice. -/
structure RegistryState where
  cache : List (String × CacheEntry) := []
  chains : List (String × ChainInfo) := []
  monitored : List String := []
  deriving DecidableEq, Repr

/-- The network as an oracle: one field per distinct upstream request
the registry can issue.  `headMainnet`/`headTestnet` are the HEAD
existence probes of `tryChainNameVariations` (true iff status 200);
`getMainnet`/`getTestnet` fetch and decode `chain.json` from the
respective partition; `upgradesA` is `getUpgradeInfoFromChain`
(the per-chain `upgrades.json`, Source A); `polkachuFeed` is the
fetched and decoded Polkachu list (Source B).  `parseTime`/`now`
model `time.Parse(time.RFC3339, s)` and `time.Now()` used by
`convertUpgradeInfo`. -/
structure Oracle where
  headMainnet : String → Bool
  headTestnet : String → Bool
  getMainnet : String → Except HttpErr ChainInfo
  getTestnet : String → Except HttpErr ChainInfo
  upgradesA : String → Except HttpErr TypesUpgradeInfo
  polkachuFeed : Except HttpErr (List PolkachuUpgrade)
  parseTime : String → Option Int
  now : Int

/-! ## Name normalization and identity resolution (registry.go 507-644) -/

/-- registry.go `cleanChainName` (507-531): strip path components down
to the last meaningful segment (skipping `chain.json`, `testnets`,
empty parts, `master`, and anything containing `github`), strip a file
extension, then trim whitespace and slashes. -/
def cleanChainName (name : String) : String :=
  let name :=
    if goContains name "/" then
      match (goSplitChar name '/').reverse.find? (fun p =>
          p != "chain.json" && p != "testnets" &&
          p != "" && p != "master" && !goContains p "github") with
      | some p => p
      | none => name
    else name
  let name :=
    match lastIndexAnyChar name.toList ['.'] with
    | some idx => String.mk (name.toList.take idx)
    | none => name
  goTrimChar (goTrimSpace name) '/'

/-- The numeric-suffix fallback of `tryChainNameVariations` (588-593):
if the name has a `-` or `_` whose trailing segment parses with
`strconv.Atoi`, the name with that segment removed, else `none`. -/
def stripNumericSuffix (name : String) : Option String :=
  match lastIndexAnyChar name.toList ['-', '_'] with
  | some idx =>
    if goAtoiOk (String.mk (name.toList.drop (idx + 1))) then
      some (String.mk (name.toList.take idx))
    else none
  | none => none

/-- registry.go `tryChainNameVariations` (533-644): HEAD-probe the
mainnet partition, then testnets, then both again with the numeric
suffix removed.  Returns `((canonicalName, network, found), probes)`
where `probes` counts the HEAD requests issued. -/
def tryChainNameVariations (o : Oracle) (chainName : String) :
    (String × String × Bool) × Nat :=
  let name := cleanChainName chainName
  if name = "" then (("", "", false), 0)
  else if o.headMainnet name then ((name, "mainnet", true), 1)
  else if o.headTestnet name then ((name, "testnet", true), 2)
  else
    match stripNumericSuffix name with
    | some base =>
      if o.headMainnet base then ((base, "mainnet", true), 3)
      else if o.headTestnet base then ((base, "testnet", true), 4)
      else (("", "", false), 4)
    | none => (("", "", false), 2)

/-- Error of `fetchChainInfo` (registry.go 455-505). -/
inductive ResolveErr where
  | invalidName (original : String)
  | notFoundInRegistry (name : String)
  | descriptorFetchFailed (name network : String) (e : HttpErr)
  deriving DecidableEq, Repr

/-- The post-fetch adjustment shared by `GetChainInfo` (437-447) and
`fetchChainInfo` (499-502): the descriptor's `Network` is set to the
partition that succeeded and its `Name` defaults to the input chain
name when the upstream document omits one. -/
def adjustDescriptor (info : ChainInfo) (network inputName : String) : ChainInfo :=
  let info := { info with network := network }
  if info.name = "" then { info with name := inputName } else info

/-- Final descriptor fetch of `fetchChainInfo` (481-504): full GET of
`chain.json` from the resolved partition, then set `Network` from the
resolution step and default `Name` to the (cleaned) input name. -/
def fetchResolved (o : Oracle) (cleaned base network : String) (probes : Nat) :
    Except ResolveErr ChainInfo × Nat :=
  match (if network = "mainnet" then o.getMainnet base else o.getTestnet base) with
  | .error e => (.error (.descriptorFetchFailed cleaned network e), probes + 1)
  | .ok info => (.ok (adjustDescriptor info network cleaned), probes + 1)

/-- registry.go `fetchChainInfo` (455-505): clean the name (empty after
cleaning fails immediately, with zero network requests), resolve the
partition via `tryChainNameVariations` (retrying with a trailing
`testnet` suffix trimmed), then fetch the descriptor. -/
def fetchChainInfo (o : Oracle) (chainName : String) :
    Except ResolveErr ChainInfo × Nat :=
  let cleaned := cleanChainName chainName
  if cleaned = "" then (.error (.invalidName chainName), 0)
  else
    match tryChainNameVariations o cleaned with
    | ((base, network, true), n) => fetchResolved o cleaned base network n
    | ((_, _, false), n) =>
      if goHasSuffix cleaned "testnet" then
        match tryChainNameVariations o (cleaned.dropRight "testnet".length) with
        | ((base, network, true), n2) => fetchResolved o cleaned base network (n + n2)
        | ((_, _, false), n2) => (.error (.notFoundInRegistry cleaned), n + n2)
      else (.error (.notFoundInRegistry cleaned), n)

/-! ## Upgrade source conversion and Source B matching -/

/-- The two upstream shapes `convertUpgradeInfo` accepts: a Source-A
`upgrades.json` document (`*types.UpgradeInfo`) or a Source-B Polkachu
entry (`*PolkachuUpgrade`). -/
inductive UpgradeSourceDoc where
  | chainReg (u : TypesUpgradeInfo)
  | polkachu (p : PolkachuUpgrade)
  deriving DecidableEq, Repr

/-- registry.go `convertUpgradeInfo` (847-910).  For a Source-A
document the canonical record copies the height and reuses the
document's upgrade `Name` as both `Version` and cosmovisor folder; for
a Source-B entry the height is the announced `Block` and the version is
`NodeVersion`, with the estimated time parsed from RFC3339 and falling
back to `now` when parsing fails.  Both receive `Estimated := true`
and the resolved descriptor's network. -/
def convertUpgradeInfo (chainName : String) (chain : ChainInfo)
    (upgrade : UpgradeSourceDoc) (parse : String → Option Int) (now : Int) :
    TypesUpgradeInfo :=
  match upgrade with
  | .chainReg u =>
    { name := u.name
      chainName := chainName
      height := u.height
      info := u.info
      time := u.time
      version := u.name
      estimated := true
      network := chain.network
      proposal := ""
      proposalLink := u.proposalLink
      guide := u.info
      blockLink := ""
      cosmovisorFolder := "upgrades/" ++ u.name
      gitHash := ""
      repo := ""
      rpc := ""
      api := "" }
  | .polkachu p =>
    let estimatedTime := (parse p.estimatedUpgradeTime).getD now
    { name := chainName
      chainName := chainName
      height := p.block
      info := p.guide
      time := estimatedTime
      version := p.nodeVersion
      estimated := true
      network := chain.network
      proposal := ""
      proposalLink := p.proposal
      guide := p.guide
      blockLink := p.blockLink
      cosmovisorFolder := p.cosmovisorFolder
      gitHash := p.gitHash
      repo := p.repo
      rpc := p.rpc
      api := p.api }

/-- ASCII model of Go `strings.EqualFold`. -/
def goEqualFold (a b : String) : Bool :=
  a.toList.map Char.toLower == b.toList.map Char.toLower

/-- registry.go `fetchPolkachuUpgrades` (665-731): fetch the shared
feed (transport/status/parse failures come from the oracle) and scan
it for the first entry whose `chain_name` matches the requested name
exactly or case-insensitively; no match is an error, as in the source. -/
def polkachuFind (o : Oracle) (chainName : String) : Except HttpErr PolkachuUpgrade :=
  match o.polkachuFeed with
  | .error e => .error e
  | .ok upgrades =>
    match upgrades.find? (fun u =>
        u.chainName == chainName || goEqualFold u.chainName chainName) with
    | some u => .ok u
    | none => .error (.other ("no upgrade found for chain " ++ chainName))

/-! ## GetChainInfo (registry.go 389-453) -/

/-- Error of `GetChainInfo`, mirroring the substring classification the
source performs on the testnet fetch error (424-435). -/
inductive ChainErr where
  | notFoundCached (name : String)
  | networkError (name : String) (e : HttpErr)
  | notFoundInEitherRegistry (name : String)
  | fetchFailed (name : String) (e : HttpErr)
  | typeAssertPanic
  deriving DecidableEq, Repr

/-- The error classification of registry.go 423-435, applied to the
testnet fetch error (the mainnet error is discarded by the source). -/
def classifyChainErr (name : String) (e : HttpErr) : ChainErr :=
  if goContains e.msg "connection reset by peer" ||
      goContains e.msg "no such host" ||
      goContains e.msg "i/o timeout" then
    .networkError name e
  else if goContains e.msg "404" then
    .notFoundInEitherRegistry name
  else
    .fetchFailed name e

/-- Successful tail of `GetChainInfo` (437-452): set `Network` from the
partition that succeeded, default `Name` to the input, store the
descriptor in the `chains` map and cache it with the default TTL. -/
def finishChainInfo (st : RegistryState) (t : Nat) (name : String)
    (info : ChainInfo) (network : String) (calls : Nat) :
    Except ChainErr ChainInfo × RegistryState × Nat :=
  let info := adjustDescriptor info network name
  (.ok info,
   { st with
     chains := (name, info) :: st.chains
     cache := cacheSet st.cache (chainInfoKey name) (some (.chain info)) t ttlDefault },
   calls)

/-- Uncached path of `GetChainInfo` (401-453): consult the `chains` map
(skipped on forced refresh), then GET the mainnet `chain.json` and, on
failure, the testnet one; both failing caches the nil marker and
classifies the error.  Note the source performs no suffix-stripping
here (it builds the URLs from the raw input name). -/
def getChainInfoFetch (o : Oracle) (st : RegistryState) (t : Nat)
    (name : String) (force : Bool) :
    Except ChainErr ChainInfo × RegistryState × Nat :=
  match (if force then none else st.chains.lookup name) with
  | some info => (.ok info, st, 0)
  | none =>
    match o.getMainnet name with
    | .ok info => finishChainInfo st t name info "mainnet" 1
    | .error _ =>
      match o.getTestnet name with
      | .ok info => finishChainInfo st t name info "testnet" 2
      | .error e2 =>
        (.error (classifyChainErr name e2),
         { st with cache := cacheSet st.cache (chainInfoKey name) none t ttlDefault },
         2)

/-- registry.go `GetChainInfo` (389-453).  Returns the result, the
updated registry state, and the number of network requests issued.  A
non-expired cache entry — including the cached nil marker — is
answered with zero network requests; a cached value of the wrong
dynamic type would make the source's type assertion panic. -/
def getChainInfo (o : Oracle) (st : RegistryState) (t : Nat)
    (name : String) (force : Bool) :
    Except ChainErr ChainInfo × RegistryState × Nat :=
  match (if force then none else cacheGet st.cache (chainInfoKey name) t) with
  | some none => (.error (.notFoundCached name), st, 0)
  | some (some (.chain c)) => (.ok c, st, 0)
  | some (some (.upgrade _)) => (.error .typeAssertPanic, st, 0)
  | none => getChainInfoFetch o st t name force

/-! ## GetUpgradeInfo (registry.go 243-311) -/

/-- Error of `GetUpgradeInfo`. -/
inductive UpgErr where
  | emptyName
  | chainResolveFailed (e : ResolveErr)
  | typeAssertPanic
  deriving DecidableEq, Repr

/-- Source-merging tail of `GetUpgradeInfo` (285-311): try Source A
(the per-chain `upgrades.json`); on any error or nil fall through to
Source B (Polkachu); on any error there as well, cache the nil marker
and return nil with no error.  Whichever source succeeds has its
document converted to the canonical record, which is cached with the
default TTL. -/
def mergeUpgradeSources (o : Oracle) (st : RegistryState) (t : Nat)
    (name : String) (chain : ChainInfo) (calls : Nat) :
    Except UpgErr (Option TypesUpgradeInfo) × RegistryState × Nat :=
  match o.upgradesA name with
  | .ok u =>
    let r := convertUpgradeInfo name chain (.chainReg u) o.parseTime o.now
    (.ok (some r),
     { st with cache := cacheSet st.cache (upgradeInfoKey name) (some (.upgrade r)) t ttlDefault },
     calls + 1)
  | .error _ =>
    match polkachuFind o name with
    | .ok p =>
      let r := convertUpgradeInfo name chain (.polkachu p) o.parseTime o.now
      (.ok (some r),
       { st with cache := cacheSet st.cache (upgradeInfoKey name) (some (.upgrade r)) t ttlDefault },
       calls + 2)
    | .error _ =>
      (.ok none,
       { st with cache := cacheSet st.cache (upgradeInfoKey name) none t ttlDefault },
       calls + 2)

/-- Uncached path of `GetUpgradeInfo` (259-311): read the `chains` map;
on a miss or forced refresh resolve the chain via `fetchChainInfo`
under the write lock — a resolution failure caches the nil marker
under the `chain_info:` key (the `chainInfoCacheKey` namespace, as in
the source at lines 271-272) and propagates the error — then merge the
two upgrade sources. -/
def getUpgradeInfoUncached (o : Oracle) (st : RegistryState) (t : Nat)
    (name : String) (force : Bool) :
    Except UpgErr (Option TypesUpgradeInfo) × RegistryState × Nat :=
  match (if force then none else st.chains.lookup name) with
  | some chain => mergeUpgradeSources o st t name chain 0
  | none =>
    match fetchChainInfo o name with
    | (.error e, n) =>
      (.error (.chainResolveFailed e),
       { st with cache := cacheSet st.cache (chainInfoKey name) none t ttlDefault },
       n)
    | (.ok chain, n) =>
      mergeUpgradeSources o { st with chains := (name, chain) :: st.chains } t name chain n

/-- registry.go `GetUpgradeInfo` (243-311).  An empty name fails
immediately with zero network requests; otherwise a non-expired
`upgrade_info:` cache entry — including the cached nil marker, which
is returned as nil with no error — is answered with zero network
requests, and a miss resolves the chain and merges the two upgrade
sources. -/
def getUpgradeInfo (o : Oracle) (st : RegistryState) (t : Nat)
    (name : String) (force : Bool) :
    Except UpgErr (Option TypesUpgradeInfo) × RegistryState × Nat :=
  if name = "" then (.error .emptyName, st, 0)
  else
    match (if force then none else cacheGet st.cache (upgradeInfoKey name) t) with
    | some none => (.ok none, st, 0)
    | some (some (.upgrade u)) => (.ok (some u), st, 0)
    | some (some (.chain _)) => (.error .typeAssertPanic, st, 0)
    | none => getUpgradeInfoUncached o st t name force

/-- registry.go `IsUpgradeCached` (912-915): cache presence probe on
the `upgrade_info:` key; a cached nil marker counts as present. -/
def isUpgradeCached (st : RegistryState) (t : Nat) (name : String) : Bool :=
  (cacheGet st.cache (upgradeInfoKey name) t).isSome

/-! ## Aggregate fan-out operations

The Go fan-outs launch one goroutine per chain behind a counting
semaphore and aggregate results under a mutex.  The admission gate
bounds parallelism but does not change which per-chain results are
collected, so the aggregate outcome is modelled as a fold over the
chain list in order, threading the registry state. -/

/-- One accumulation step of `GetMainnetUpgrades` (registry.go
327-345): a per-chain error is logged and skipped, a nil record is
skipped, and a record is appended only when its network matches. -/
def mainnetUpgradesStep (o : Oracle) (t : Nat)
    (acc : List TypesUpgradeInfo × RegistryState) (chainName : String) :
    List TypesUpgradeInfo × RegistryState :=
  match getUpgradeInfo o acc.2 t chainName false with
  | (.error _, st, _) => (acc.1, st)
  | (.ok none, st, _) => (acc.1, st)
  | (.ok (some info), st, _) =>
    (if info.network = "mainnet" then acc.1 ++ [info] else acc.1, st)

/-- registry.go `GetMainnetUpgrades` (313-349): fan out over the
monitored chains, skipping individual failures, and return the
collected mainnet records together with a nil error (the source's
`return upgrades, nil`). -/
def getMainnetUpgrades (o : Oracle) (t : Nat) (st : RegistryState) :
    (List TypesUpgradeInfo × Option String) × RegistryState :=
  let r := st.monitored.foldl (mainnetUpgradesStep o t) ([], st)
  ((r.1, none), r.2)

/-- Accumulator of the chain-loading job: the failed chains with their
errors, and the registry state. -/
structure LoadAcc where
  failed : List (String × ChainErr)
  st : RegistryState
  deriving Repr

/-- One unit of the chain-loading fan-out (`LoadChainsJob.Run`,
internal/cron): force-refresh the chain's descriptor — a failure is
recorded as `(name, error)` and the remaining chains are unaffected —
and, on success, force-refresh its upgrade record, whose own failure
is only logged. -/
def loadChainsStep (o : Oracle) (t : Nat) (acc : LoadAcc) (name : String) : LoadAcc :=
  match getChainInfo o acc.st t name true with
  | (.error e, st, _) => ⟨acc.failed ++ [(name, e)], st⟩
  | (.ok _, st, _) =>
    match getUpgradeInfo o st t name true with
    | (_, st2, _) => ⟨acc.failed, st2⟩

/-- `LoadChainsJob.Run` (internal/cron): load the configured chain
names (a config-load failure is the only whole-operation error),
fan out one pre-fetch per chain collecting individual failures, then
install the full name list as the monitored set and finish
successfully regardless of how many chains failed. -/
def runLoadChains (o : Oracle) (t : Nat) (st : RegistryState)
    (config : Except String (List String)) : Except String LoadAcc :=
  match config with
  | .error e => .error e
  | .ok names =>
    let acc := names.foldl (loadChainsStep o t) ⟨[], st⟩
    .ok ⟨acc.failed, { acc.st with monitored := names }⟩

/-! ## Interleaving model of the GetUpgradeInfo locking discipline

registry.go 259-277 reads the `chains` map under the shared (read)
lock, releases it, and — on a miss or forced refresh — acquires the
exclusive (write) lock and performs the network resolution while
holding it, without re-checking the map.  The model below captures
exactly that structure for two concurrent callers of the same
uncached chain name: each thread atomically (1) performs the read-lock
check, (2) acquires the free write lock, and (3) resolves, publishes
the chain, and releases.  Any Go schedule maps onto a schedule here,
and every schedule here is realizable in Go, because the only shared
accesses are the map read (step 1, under RLock) and the locked
resolve-and-publish (steps 2-3). -/

/-- Program counter of one `GetUpgradeInfo` caller on the uncached
path: about to do the read-lock map check; past the check having seen
a miss and waiting on the write lock; holding the write lock and
resolving; finished. -/
inductive UIPhase where
  | start
  | missed
  | resolving
  | finished
  deriving DecidableEq, Repr

/-- Shared state of two concurrent `GetUpgradeInfo` callers for the
same chain name: the two program counters, whether the write lock is
held, whether the `chains` map already holds the name, and how many
network resolutions have been started. -/
structure UIConc where
  pc0 : UIPhase
  pc1 : UIPhase
  writerHeld : Bool
  chainCached : Bool
  resolutions : Nat
  deriving DecidableEq, Repr

/-- One atomic step of thread `i` (`false` = thread 0, `true` = thread
1); a thread blocked on the write lock leaves the state unchanged. -/
def uiStep (i : Bool) (s : UIConc) : UIConc :=
  let pc := if i then s.pc1 else s.pc0
  let setPc := fun (s' : UIConc) (pc' : UIPhase) =>
    if i then { s' with pc1 := pc' } else { s' with pc0 := pc' }
  match pc with
  | .start => setPc s (if s.chainCached then .finished else .missed)
  | .missed => if s.writerHeld then s else setPc { s with writerHeld := true } .resolving
  | .resolving =>
    setPc { s with writerHeld := false, chainCached := true,
                   resolutions := s.resolutions + 1 } .finished
  | .finished => s

/-- Run a schedule (a list of thread choices) from a state. -/
def uiRun (sched : List Bool) (s : UIConc) : UIConc :=
  sched.foldl (fun s i => uiStep i s) s

/-- Initial state: both callers arriving for the same chain name in
the same uncached window. -/
def uiInit : UIConc := ⟨.start, .start, false, false, 0⟩

/-- How many of the two threads are currently inside the locked
resolution section. -/
def uiResolvingCount (s : UIConc) : Nat :=
  (if s.pc0 = .resolving then 1 else 0) + (if s.pc1 = .resolving then 1 else 0)

/-- Invariant of the two-caller model: at most one thread is inside
the locked resolution section, and none is when the write lock is
free. -/
def UIInv (s : UIConc) : Prop :=
  uiResolvingCount s ≤ 1 ∧ (s.writerHeld = false → uiResolvingCount s = 0)

/-- A schedule in which both callers pass the read-lock map check
before either acquires the write lock, so each performs its own
resolution in turn. -/
def dupSchedule : List Bool := [false, true, false, false, true, true]

/-! ## Concrete instances used by counterexamples and witnesses -/

/-- The empty registry state of a freshly constructed registry. -/
def emptyState : RegistryState := {}

/-- A network on which nothing resolves: every existence probe misses,
every fetch yields HTTP 404, and the Polkachu feed is down. -/
def oUnresolvable : Oracle :=
  { headMainnet := fun _ => false
    headTestnet := fun _ => false
    getMainnet := fun _ => .error (.status 404)
    getTestnet := fun _ => .error (.status 404)
    upgradesA := fun _ => .error (.status 404)
    polkachuFeed := .error (.status 503)
    parseTime := fun _ => none
    now := 0 }

/-- The `chain.json` descriptor of the cosmoshub example, as decoded
(no `network` field is published in the registry documents). -/
def cosmoshubDoc : ChainInfo := { name := "cosmoshub", chainID := "cosmoshub-4" }

/-- A network on which only `cosmoshub` exists, in the mainnet
partition: the scenario of the suffix-stripping claim. -/
def oCosmoshub : Oracle :=
  { oUnresolvable with
    headMainnet := fun n => n == "cosmoshub"
    getMainnet := fun n =>
      if n == "cosmoshub" then .ok cosmoshubDoc else .error (.status 404) }

/-- A resolved mainnet descriptor used as the cached chain of the
upgrade-path witnesses. -/
def gaiaChain : ChainInfo :=
  { name := "gaia", chainID := "gaia-1", network := "mainnet" }

/-- A registry state in which `gaia` is already resolved (present in
the `chains` map) but no upgrade fact is cached. -/
def gaiaState : RegistryState := { chains := [("gaia", gaiaChain)] }

/-- A Source-A `upgrades.json` document whose upgrade name and version
fields differ, witnessing which of the two the conversion copies. -/
def docNamedUpgrade : TypesUpgradeInfo :=
  { name := "upgrade-x", version := "v9.0.0", height := 42, info := "guide text" }

/-- A Source-A document announcing an upgrade with height `0` and an
empty upgrade name: syntactically valid JSON that violates the spec's
validity invariant. -/
def docInvalid : TypesUpgradeInfo := { name := "", version := "", height := 0 }

/-- A network whose Source A serves `docInvalid` for `gaia`. -/
def oInvalidDoc : Oracle :=
  { oUnresolvable with upgradesA := fun n =>
      if n == "gaia" then .ok docInvalid else .error (.status 404) }

/-- The record `GetUpgradeInfo` surfaces for `gaia` on `oInvalidDoc`. -/
def surfacedInvalid : TypesUpgradeInfo :=
  convertUpgradeInfo "gaia" gaiaChain (.chainReg docInvalid)
    oInvalidDoc.parseTime oInvalidDoc.now

/-- A network whose Source A serves `docNamedUpgrade` for `gaia`. -/
def oSourceA : Oracle :=
  { oUnresolvable with upgradesA := fun n =>
      if n == "gaia" then .ok docNamedUpgrade else .error (.status 404) }

/-- A Polkachu feed entry for `gaia` (matched case-insensitively). -/
def polkachuGaia : PolkachuUpgrade :=
  { network := "mainnet", chainName := "Gaia", nodeVersion := "v10.0.0",
    block := 777, estimatedUpgradeTime := "bad-timestamp" }

/-- A network whose Source A is down and whose Polkachu feed lists
`gaia`. -/
def oSourceB : Oracle :=
  { oUnresolvable with polkachuFeed := .ok [polkachuGaia] }

/-- Descriptors for the chain-loading witness: `good` and `good2`
resolve on mainnet, `bad` resolves nowhere. -/
def oLoad : Oracle :=
  { oUnresolvable with
    headMainnet := fun n => n == "good" || n == "good2"
    getMainnet := fun n =>
      if n == "good" || n == "good2" then .ok { name := n } else .error (.status 404) }

/-! ## Theorems -/

/-- C1: for a chain name that resolves in neither partition, the
engine caches a negative marker with the 5-minute TTL, and a second
`GetChainInfo` call within the window answers not-found from the cache
with zero network requests — but a second `GetUpgradeInfo` call within
the same window performs the full resolution again (two HEAD probes),
because the failure path of `GetUpgradeInfo` stores its nil marker
under the `chain_info:` key, which `GetUpgradeInfo` never consults.
This refutes the zero-additional-requests part of the claim for
`GetUpgradeInfo`, against the source's own stated intent of preventing
repeated failed lookups. -/
theorem c1_secondGetUpgradeInfoRefetches :
    (getUpgradeInfo oUnresolvable emptyState 0 "nochain" false).2.2 = 2 ∧
    ((getUpgradeInfo oUnresolvable emptyState 0 "nochain" false).1 =
      .error (.chainResolveFailed (.notFoundInRegistry "nochain"))) ∧
    (getUpgradeInfo oUnresolvable
      ((getUpgradeInfo oUnresolvable emptyState 0 "nochain" false).2.1)
      10 "nochain" false).2.2 = 2 ∧
    (getChainInfo oUnresolvable
      ((getUpgradeInfo oUnresolvable emptyState 0 "nochain" false).2.1)
      10 "nochain" false) =
      (.error (.notFoundCached "nochain"),
       (getUpgradeInfo oUnresolvable emptyState 0 "nochain" false).2.1, 0) := by
  refine ⟨?_, ?_, ?_, ?_⟩ <;> rfl

/-- C2 counterexample: a schedule of two concurrent `GetUpgradeInfo`
callers for the same uncached chain in which both pass the read-lock
map check before either takes the write lock; the write lock
serializes the two resolutions but does not coalesce them, so two
network resolutions are triggered, refuting the at-most-one-resolution
claim. -/
theorem c2_duplicateResolutions :
    (uiRun dupSchedule uiInit).resolutions = 2 ∧
    ¬ (uiRun dupSchedule uiInit).resolutions ≤ 1 := by
  refine ⟨rfl, by decide⟩

/-- C2 (amended): the exclusive lock taken by `GetUpgradeInfo` before
resolving guarantees mutual exclusion of resolutions — in every
interleaving of two concurrent callers, at most one is inside the
locked resolution section at any instant — but it does not coalesce
requests: callers that missed the cache before the first resolution
completed each perform their own resolution in turn. -/
theorem c2_resolutionsMutuallyExclusive (sched : List Bool) :
    uiResolvingCount (uiRun sched uiInit) ≤ 1 := by
  have hstep : ∀ (i : Bool) (s : UIConc), UIInv s → UIInv (uiStep i s) := by
    intro i s h
    obtain ⟨p0, p1, w, c, r⟩ := s
    cases i <;> cases p0 <;> cases p1 <;> cases w <;> cases c <;>
      simp_all [uiStep, UIInv, uiResolvingCount]
  have hrun : ∀ (l : List Bool) (s : UIConc), UIInv s → UIInv (uiRun l s) := by
    intro l
    induction l with
    | nil => intro s h; exact h
    | cons i rest ih =>
      intro s h
      exact ih (uiStep i s) (hstep i s h)
  exact (hrun sched uiInit (by simp [UIInv, uiInit, uiResolvingCount])).1

/-- C4 counterexample: converting a Source-A upgrade document whose
upgrade name and version differ yields a canonical record whose
version label is the document's upgrade *name*, not its version field
(registry.go 856 sets `Version: u.Name`), while the target height is
copied as claimed. -/
theorem c4_sourceAVersionFromName :
    (convertUpgradeInfo "gaia" gaiaChain (.chainReg docNamedUpgrade)
        oUnresolvable.parseTime oUnresolvable.now).version ≠
      docNamedUpgrade.version ∧
    (convertUpgradeInfo "gaia" gaiaChain (.chainReg docNamedUpgrade)
        oUnresolvable.parseTime oUnresolvable.now).version =
      docNamedUpgrade.name ∧
    (convertUpgradeInfo "gaia" gaiaChain (.chainReg docNamedUpgrade)
        oUnresolvable.parseTime oUnresolvable.now).height =
      docNamedUpgrade.height := by
  refine ⟨by decide, rfl, rfl⟩

/-- C4 (amended): a Source-A document with height H converts to a
canonical record with target height H whose version label is the
document's upgrade name (not its `version` field); a Source-B Polkachu
entry with block B and node version N converts to a record with target
height B and version label N. -/
theorem c4_conversionFieldMapping (chainName : String) (chain : ChainInfo)
    (u : TypesUpgradeInfo) (p : PolkachuUpgrade)
    (parse : String → Option Int) (now : Int) :
    (convertUpgradeInfo chainName chain (.chainReg u) parse now).height = u.height ∧
    (convertUpgradeInfo chainName chain (.chainReg u) parse now).version = u.name ∧
    (convertUpgradeInfo chainName chain (.polkachu p) parse now).height = p.block ∧
    (convertUpgradeInfo chainName chain (.polkachu p) parse now).version = p.nodeVersion :=
  ⟨rfl, rfl, rfl, rfl⟩

/-- C3: for a resolved chain, `GetUpgradeInfo` consults Source A (the
per-chain `upgrades.json`) first — when A succeeds the result is A's
converted record and exactly one upgrade-source request was made, so B
was not consulted; on any error from A it falls through to Source B
without propagating the error; and when both sources fail the result
is nil with a nil error. -/
theorem c3_sourcePriorityAndFallthrough (o : Oracle) (st : RegistryState)
    (t : Nat) (name : String) (c : ChainInfo)
    (hname : name ≠ "")
    (hcache : cacheGet st.cache (upgradeInfoKey name) t = none)
    (hchain : st.chains.lookup name = some c) :
    (∀ u, o.upgradesA name = .ok u →
      getUpgradeInfo o st t name false =
        (.ok (some (convertUpgradeInfo name c (.chainReg u) o.parseTime o.now)),
         { st with cache := cacheSet st.cache (upgradeInfoKey name) (some (.upgrade (convertUpgradeInfo name c (.chainReg u) o.parseTime o.now))) t ttlDefault },
         1)) ∧
    (∀ e p, o.upgradesA name = .error e → polkachuFind o name = .ok p →
      (getUpgradeInfo o st t name false).1 =
        .ok (some (convertUpgradeInfo name c (.polkachu p) o.parseTime o.now))) ∧
    (∀ e eB, o.upgradesA name = .error e → polkachuFind o name = .error eB →
      getUpgradeInfo o st t name false =
        (.ok none,
         { st with cache := cacheSet st.cache (upgradeInfoKey name) none t ttlDefault },
         2)) := by
  have hbase : getUpgradeInfo o st t name false = mergeUpgradeSources o st t name c 0 := by
    simp [getUpgradeInfo, hname, hcache, getUpgradeInfoUncached, hchain]
  refine ⟨?_, ?_, ?_⟩
  · intro u hu
    rw [hbase]
    simp [mergeUpgradeSources, hu]
  · intro e p he hp
    rw [hbase]
    simp [mergeUpgradeSources, he, hp]
  · intro e eB he hp
    rw [hbase]
    simp [mergeUpgradeSources, he, hp]

/-- Witness for C3: on a network whose Source A answers for `gaia`,
the already-resolved `gaia` returns A's converted record with exactly
one upgrade-source request. -/
theorem c3_witness :
    getUpgradeInfo oSourceA gaiaState 0 "gaia" false =
      (.ok (some (convertUpgradeInfo "gaia" gaiaChain (.chainReg docNamedUpgrade)
          oSourceA.parseTime oSourceA.now)),
       { gaiaState with cache := cacheSet gaiaState.cache (upgradeInfoKey "gaia") (some (.upgrade (convertUpgradeInfo "gaia" gaiaChain (.chainReg docNamedUpgrade) oSourceA.parseTime oSourceA.now))) 0 ttlDefault },
       1) :=
  (c3_sourcePriorityAndFallthrough oSourceA gaiaState 0 "gaia" gaiaChain
    (by decide) rfl rfl).1 docNamedUpgrade rfl

/-- C5 counterexample: a Source-A document announcing height `0` with
an empty upgrade name is surfaced by `GetUpgradeInfo` as an upgrade
record with non-positive target height and empty version label — no
validity filter is applied before returning or caching it. -/
theorem c5_invalidUpgradeSurfaced :
    (getUpgradeInfo oInvalidDoc gaiaState 0 "gaia" false).1 =
      .ok (some surfacedInvalid) ∧
    surfacedInvalid.height ≤ 0 ∧ surfacedInvalid.version = "" := by
  refine ⟨rfl, by decide, rfl⟩

/-- C5 (amended): `GetUpgradeInfo` surfaces the winning source's
record without height or version validation — the surfaced record's
target height is exactly the Source-A document's height and its
version label is exactly the document's upgrade name, so a surfaced
record is valid (positive height, non-empty version) precisely when
the upstream document is. -/
theorem c5_surfacedRecordUnvalidated (o : Oracle) (st : RegistryState)
    (t : Nat) (name : String) (c : ChainInfo) (u : TypesUpgradeInfo)
    (hname : name ≠ "")
    (hcache : cacheGet st.cache (upgradeInfoKey name) t = none)
    (hchain : st.chains.lookup name = some c)
    (hA : o.upgradesA name = .ok u) :
    ∃ r, (getUpgradeInfo o st t name false).1 = .ok (some r) ∧
      r.height = u.height ∧ r.version = u.name := by
  refine ⟨convertUpgradeInfo name c (.chainReg u) o.parseTime o.now, ?_, rfl, rfl⟩
  simp [getUpgradeInfo, hname, hcache, getUpgradeInfoUncached, hchain,
        mergeUpgradeSources, hA]

/-- Witness for C5's amended theorem at the concrete Source-A
document. -/
theorem c5_witness :
    ∃ r, (getUpgradeInfo oSourceA gaiaState 0 "gaia" false).1 = .ok (some r) ∧
      r.height = docNamedUpgrade.height ∧ r.version = docNamedUpgrade.name :=
  c5_surfacedRecordUnvalidated oSourceA gaiaState 0 "gaia" gaiaChain docNamedUpgrade
    (by decide) rfl rfl rfl

/-- C6 counterexample: with `cosmoshub` published only in the mainnet
partition, `GetChainInfo "cosmoshub-1"` fails (it builds its probe
URLs from the raw input name and never strips the numeric suffix)
while `GetChainInfo "cosmoshub"` resolves to mainnet — the two calls
do not resolve identically, refuting the claim as stated about
`GetChainInfo`. -/
theorem c6_getChainInfoDoesNotStripSuffix :
    (getChainInfo oCosmoshub emptyState 0 "cosmoshub-1" false).1 =
      .error (.notFoundInEitherRegistry "cosmoshub-1") ∧
    (getChainInfo oCosmoshub emptyState 0 "cosmoshub" false).1 =
      .ok { cosmoshubDoc with network := "mainnet" } := by
  refine ⟨rfl, rfl⟩

/-- C6 (amended): the numeric-suffix retry lives in
`tryChainNameVariations`, the resolver used by `fetchChainInfo` on the
`GetUpgradeInfo` path: a name ending in a hyphenated integer suffix
whose probes miss in both partitions is retried with the suffix
removed, so the resolver returns the same base chain and network for
the suffixed and unsuffixed names.  `GetChainInfo` performs no such
stripping. -/
theorem c6_suffixStrippingInResolver (o : Oracle) (n b : String)
    (hn : cleanChainName n = n) (hb : cleanChainName b = b)
    (hstrip : stripNumericSuffix n = some b)
    (hm : o.headMainnet n = false) (ht : o.headTestnet n = false)
    (hbm : o.headMainnet b = true)
    (hne : n ≠ "") (hbne : b ≠ "") :
    tryChainNameVariations o n = ((b, "mainnet", true), 3) ∧
    tryChainNameVariations o b = ((b, "mainnet", true), 1) := by
  constructor
  · simp [tryChainNameVariations, hn, hne, hm, ht, hstrip, hbm]
  · simp [tryChainNameVariations, hb, hbne, hbm]

/-- Witness for C6's amended theorem: `cosmoshub-1` and `cosmoshub`
resolve to the same base chain and network. -/
theorem c6_witness :
    tryChainNameVariations oCosmoshub "cosmoshub-1" =
      (("cosmoshub", "mainnet", true), 3) ∧
    tryChainNameVariations oCosmoshub "cosmoshub" =
      (("cosmoshub", "mainnet", true), 1) :=
  c6_suffixStrippingInResolver oCosmoshub "cosmoshub-1" "cosmoshub"
    rfl rfl rfl rfl rfl rfl (by decide) (by decide)

/-- C7: on the uncached path `GetChainInfo` fetches the mainnet
partition first — when it succeeds exactly one request is made, so the
testnet partition is not probed — falling back to testnet otherwise;
the returned descriptor's network field is set to the partition that
succeeded and its name defaults to the input chain name exactly when
the upstream document omits one. -/
theorem c7_mainnetFirstAndDefaults (o : Oracle) (st : RegistryState)
    (t : Nat) (name : String) (info : ChainInfo)
    (hcache : cacheGet st.cache (chainInfoKey name) t = none)
    (hchains : st.chains.lookup name = none) :
    (o.getMainnet name = .ok info →
      (getChainInfo o st t name false).1 = .ok (adjustDescriptor info "mainnet" name) ∧
      (getChainInfo o st t name false).2.2 = 1) ∧
    (∀ e, o.getMainnet name = .error e → o.getTestnet name = .ok info →
      (getChainInfo o st t name false).1 = .ok (adjustDescriptor info "testnet" name) ∧
      (getChainInfo o st t name false).2.2 = 2) ∧
    (∀ net, (adjustDescriptor info net name).network = net) ∧
    (info.name = "" → ∀ net, (adjustDescriptor info net name).name = name) ∧
    (info.name ≠ "" → ∀ net, (adjustDescriptor info net name).name = info.name) := by
  have hbase : getChainInfo o st t name false = getChainInfoFetch o st t name false := by
    simp [getChainInfo, hcache]
  refine ⟨?_, ?_, ?_, ?_, ?_⟩
  · intro hm
    rw [hbase]
    simp [getChainInfoFetch, hchains, hm, finishChainInfo]
  · intro e hm htn
    rw [hbase]
    simp [getChainInfoFetch, hchains, hm, htn, finishChainInfo]
  · intro net
    by_cases h : info.name = "" <;> simp [adjustDescriptor, h]
  · intro h net
    simp [adjustDescriptor, h]
  · intro h net
    simp [adjustDescriptor, h]

/-- Witness for C7 at the cosmoshub scenario: mainnet succeeds with
one request and the network field is set to mainnet. -/
theorem c7_witness :
    (getChainInfo oCosmoshub emptyState 0 "cosmoshub" false).1 =
      .ok (adjustDescriptor cosmoshubDoc "mainnet" "cosmoshub") ∧
    (getChainInfo oCosmoshub emptyState 0 "cosmoshub" false).2.2 = 1 :=
  (c7_mainnetFirstAndDefaults oCosmoshub emptyState 0 "cosmoshub" cosmoshubDoc
    rfl rfl).1 rfl

/-- A chain whose descriptor pre-fetch fails at its step has its name
and error appended to the failure list by that step. -/
theorem loadChainsStep_failed_err (o : Oracle) (t : Nat) (acc : LoadAcc)
    (name : String) (e : ChainErr)
    (h : (getChainInfo o acc.st t name true).1 = .error e) :
    (loadChainsStep o t acc name).failed = acc.failed ++ [(name, e)] := by
  unfold loadChainsStep
  rcases hg : getChainInfo o acc.st t name true with ⟨r1, st2, k⟩
  rw [hg] at h
  cases r1 with
  | error e2 =>
    have h2 : (Except.error e2 : Except ChainErr ChainInfo) = Except.error e := h
    rw [Except.error.injEq] at h2
    subst h2
    rfl
  | ok c => exact Except.noConfusion h

/-- The failure list accumulated by the chain-loading fan-out only
grows: whatever a prefix of the work list recorded is a prefix of the
final record. -/
theorem loadChains_failed_grows (o : Oracle) (t : Nat) :
    ∀ (l : List String) (acc : LoadAcc),
      acc.failed <+: (l.foldl (loadChainsStep o t) acc).failed := by
  intro l
  induction l with
  | nil => intro acc; exact List.prefix_rfl
  | cons a rest ih =>
    intro acc
    rw [List.foldl_cons]
    refine List.IsPrefix.trans ?_ (ih (loadChainsStep o t acc a))
    unfold loadChainsStep
    rcases hg : getChainInfo o acc.st t a true with ⟨r1, st2, k⟩
    cases r1 with
    | error e => exact List.prefix_append _ _
    | ok c =>
      rcases hu : getUpgradeInfo o st2 t a true with ⟨r2, st3, k2⟩
      exact List.prefix_rfl

/-- C8: the chain-loading aggregate never fails as a whole — for any
split of the work list around a chain `n` whose descriptor pre-fetch
fails at its step, the run still completes successfully, records
`(n, error)` in the partial-failure summary, installs the full name
list as the monitored set, and the read-path aggregate
`GetMainnetUpgrades` likewise returns a nil whole-operation error. -/
theorem c8_partialFailureAggregation (o : Oracle) (t : Nat) (st : RegistryState)
    (xs ys : List String) (n : String) (e : ChainErr)
    (herr : (getChainInfo o ((xs.foldl (loadChainsStep o t) ⟨[], st⟩).st) t n true).1 =
      .error e) :
    ∃ r, runLoadChains o t st (.ok (xs ++ n :: ys)) = .ok r ∧
      (n, e) ∈ r.failed ∧
      r.st.monitored = xs ++ n :: ys ∧
      (getMainnetUpgrades o t st).1.2 = none := by
  refine ⟨_, rfl, ?_, rfl, rfl⟩
  rw [List.foldl_append, List.foldl_cons]
  have hmem : (n, e) ∈ (loadChainsStep o t (xs.foldl (loadChainsStep o t) ⟨[], st⟩) n).failed := by
    rw [loadChainsStep_failed_err o t _ n e herr]
    exact List.mem_append_right _ (List.mem_singleton_self _)
  exact ((loadChains_failed_grows o t ys _).sublist).subset hmem

/-- Witness for C8: loading `good`, `bad`, `good2` where only `bad`
fails completes successfully with `bad` in the failure summary and all
three chains monitored. -/
theorem c8_witness :
    ∃ r, runLoadChains oLoad 0 emptyState (.ok (["good"] ++ "bad" :: ["good2"])) = .ok r ∧
      ("bad", ChainErr.notFoundInEitherRegistry "bad") ∈ r.failed ∧
      r.st.monitored = ["good"] ++ "bad" :: ["good2"] ∧
      (getMainnetUpgrades oLoad 0 emptyState).1.2 = none :=
  c8_partialFailureAggregation oLoad 0 emptyState ["good"] ["good2"] "bad"
    (ChainErr.notFoundInEitherRegistry "bad") rfl

/-- C9: an input name that is empty or normalizes to empty fails
immediately with an error and zero network requests, in every code
path that performs resolution: `fetchChainInfo` rejects it before
probing, `tryChainNameVariations` reports not-found without probing,
and `GetUpgradeInfo` rejects the empty name up front. -/
theorem c9_emptyNameFailsImmediately (o : Oracle) (st : RegistryState)
    (t : Nat) (force : Bool) (name : String)
    (h : cleanChainName name = "") :
    fetchChainInfo o name = (.error (.invalidName name), 0) ∧
    tryChainNameVariations o name = (("", "", false), 0) ∧
    (name = "" → getUpgradeInfo o st t name force = (.error .emptyName, st, 0)) := by
  refine ⟨?_, ?_, ?_⟩
  · simp [fetchChainInfo, h]
  · simp [tryChainNameVariations, h]
  · intro h0
    simp [getUpgradeInfo, h0]

/-- Witness for C9 at the empty name. -/
theorem c9_witness :
    fetchChainInfo oUnresolvable "" = (.error (.invalidName ""), 0) ∧
    tryChainNameVariations oUnresolvable "" = (("", "", false), 0) ∧
    ("" = "" → getUpgradeInfo oUnresolvable emptyState 0 "" false =
      (.error .emptyName, emptyState, 0)) :=
  c9_emptyNameFailsImmediately oUnresolvable emptyState 0 false "" rfl

/-- C10: when both upgrade sources fail for a resolved chain,
`GetUpgradeInfo` returns nil with no error and stores the negative
marker under the `upgrade_info:` key, and `IsUpgradeCached` then
reports the chain as cached at any instant within the TTL window —
the presence probe counts a cached confirmed-absent marker the same
as a cached record. -/
theorem c10_negativeMarkerCounted (o : Oracle) (st : RegistryState)
    (t : Nat) (name : String) (c : ChainInfo) (eA eB : HttpErr) (t2 : Nat)
    (hname : name ≠ "")
    (hcache : cacheGet st.cache (upgradeInfoKey name) t = none)
    (hchain : st.chains.lookup name = some c)
    (hA : o.upgradesA name = .error eA)
    (hB : polkachuFind o name = .error eB)
    (ht : t2 ≤ t + ttlDefault) :
    (getUpgradeInfo o st t name false).1 = .ok none ∧
    isUpgradeCached (getUpgradeInfo o st t name false).2.1 t2 name = true := by
  have hbase : getUpgradeInfo o st t name false =
      (.ok none,
       { st with cache := cacheSet st.cache (upgradeInfoKey name) none t ttlDefault },
       2) := by
    simp [getUpgradeInfo, hname, hcache, getUpgradeInfoUncached, hchain,
          mergeUpgradeSources, hA, hB]
  rw [hbase]
  refine ⟨rfl, ?_⟩
  simp [isUpgradeCached, cacheGet, cacheSet, List.lookup, ht]

/-- Witness for C10: after both sources fail for the resolved `gaia`,
the presence probe reports it cached one minute later. -/
theorem c10_witness :
    (getUpgradeInfo oUnresolvable gaiaState 0 "gaia" false).1 = .ok none ∧
    isUpgradeCached (getUpgradeInfo oUnresolvable gaiaState 0 "gaia" false).2.1 60 "gaia" =
      true :=
  c10_negativeMarkerCounted oUnresolvable gaiaState 0 "gaia" gaiaChain
    (.status 404) (.status 503) 60 (by decide) rfl rfl rfl rfl (by decide)

end CosmosWatcher
